import Mathlib

/-!
Verification development for the productivity-tracking repository.

The definitions below are shallow embeddings of the Python functions in
`src/streamlitwraw_v4.py`, `src/assesment_v2.py` and
`src/productivity-activity-pattern-prod.py`.  Python strings are embedded as
`List Char`, Python dicts / JSON values as the inductive `Json`, exceptions as
`Option` / `Except`, and the PIL image operations as an abstract operation
record (`ImageOps`) since pixel-level behaviour is external to the repository.
-/

namespace Productivity

/-- JSON values, the result type of Python's `json.loads` as used by the code
(`dict` → `obj`, `list` → `arr`, `str` → `str`, `int` → `num`, booleans and
`None`).  Floats are not modelled: no code path under verification produces
or consumes one. -/
inductive Json : Type where
  | null : Json
  | bool (b : Bool) : Json
  | num (n : Int) : Json
  | str (s : String) : Json
  | arr (items : List Json) : Json
  | obj (fields : List (String × Json)) : Json

/-- The character `\x7b` (opening curly brace). -/
def lbrace : Char := '\x7b'

/-- The character `\x7d` (closing curly brace). -/
def rbrace : Char := '\x7d'

/-- The character `\x5b` (opening square bracket). -/
def lbrack : Char := '\x5b'

/-- The character `\x5d` (closing square bracket). -/
def rbrack : Char := '\x5d'

/-- The double-quote character. -/
def quoteChar : Char := '\x22'

/-- The backslash character. -/
def backslashChar : Char := '\x5c'

/-- JSON insignificant whitespace (RFC 8259, as accepted by `json.loads`):
space, tab, line feed, carriage return. -/
def isJsonWs (c : Char) : Bool :=
  c = ' ' ∨ c = '\t' ∨ c = '\n' ∨ c = '\r'

/-- Drop leading JSON whitespace. -/
def skipWs (s : List Char) : List Char :=
  s.dropWhile isJsonWs

/-- Decode a single-character JSON string escape (`\"`, `\\`, `\/`, `\n`,
`\t`, `\r`, `\b`, `\f`).  `\uXXXX` escapes are not modelled: no input under
verification contains one. -/
def decodeEsc (c : Char) : Option Char :=
  if c = quoteChar then some quoteChar
  else if c = backslashChar then some backslashChar
  else if c = '/' then some '/'
  else if c = 'n' then some '\n'
  else if c = 't' then some '\t'
  else if c = 'r' then some '\r'
  else if c = 'b' then some (Char.ofNat 8)
  else if c = 'f' then some (Char.ofNat 12)
  else none

/-- Parse the body of a JSON string (the opening quote already consumed);
returns the decoded characters and the remaining input. -/
def parseStrBody : List Char → Option (List Char × List Char)
  | [] => none
  | c :: cs =>
    if c = quoteChar then some ([], cs)
    else if c = backslashChar then
      match cs with
      | [] => none
      | e :: cs2 =>
        match decodeEsc e, parseStrBody cs2 with
        | some d, some (body, rest) => some (d :: body, rest)
        | _, _ => none
    else
      match parseStrBody cs with
      | some (body, rest) => some (c :: body, rest)
      | none => none

/-- Numeric value of a list of decimal digits. -/
def digitsToNat (ds : List Char) : Nat :=
  ds.foldl (fun a c => 10 * a + (c.toNat - 48)) 0

/-- True when the next character would make the number a float or use an
exponent (`.`/`e`/`E`); such numbers are outside the model. -/
def startsFloat (s : List Char) : Bool :=
  match s with
  | c :: _ => c = '.' ∨ c = 'e' ∨ c = 'E'
  | [] => false

/-- Parse a JSON integer (optional minus sign followed by digits). -/
def parseNum (s : List Char) : Option (Json × List Char) :=
  match s with
  | [] => none
  | c :: cs =>
    if c = '-' then
      match cs.span Char.isDigit with
      | ([], _) => none
      | (ds, rest) =>
        if startsFloat rest then none
        else some (Json.num (-(Int.ofNat (digitsToNat ds))), rest)
    else
      match (c :: cs).span Char.isDigit with
      | ([], _) => none
      | (ds, rest) =>
        if startsFloat rest then none
        else some (Json.num (Int.ofNat (digitsToNat ds)), rest)

/-- If `lit` is a prefix of `s`, drop it. -/
def stripLit (lit s : List Char) : Option (List Char) :=
  if lit.isPrefixOf s then some (s.drop lit.length) else none

mutual

/-- Recursive-descent parser for one JSON value (fuel-indexed; the fuel is an
upper bound on nesting and is always sufficient when set to the input
length plus one, since every recursive call consumes at least one
character). -/
def parseVal : Nat → List Char → Option (Json × List Char)
  | 0, _ => none
  | Nat.succ fuel, s =>
    match skipWs s with
    | [] => none
    | c :: cs =>
      if c = lbrace then
        match skipWs cs with
        | [] => none
        | d :: ds =>
          if d = rbrace then some (Json.obj [], ds)
          else
            match parseMemberSeq fuel (d :: ds) with
            | some (fields, rest) => some (Json.obj fields, rest)
            | none => none
      else if c = lbrack then
        match skipWs cs with
        | [] => none
        | d :: ds =>
          if d = rbrack then some (Json.arr [], ds)
          else
            match parseItemSeq fuel (d :: ds) with
            | some (items, rest) => some (Json.arr items, rest)
            | none => none
      else if c = quoteChar then
        match parseStrBody cs with
        | some (body, rest) => some (Json.str (String.mk body), rest)
        | none => none
      else if c = 't' then
        match stripLit "rue".data cs with
        | some rest => some (Json.bool true, rest)
        | none => none
      else if c = 'f' then
        match stripLit "alse".data cs with
        | some rest => some (Json.bool false, rest)
        | none => none
      else if c = 'n' then
        match stripLit "ull".data cs with
        | some rest => some (Json.null, rest)
        | none => none
      else parseNum (c :: cs)

/-- Parse a non-empty `"key": value` member sequence up to and including the
closing brace. -/
def parseMemberSeq : Nat → List Char → Option (List (String × Json) × List Char)
  | 0, _ => none
  | Nat.succ fuel, s =>
    match skipWs s with
    | [] => none
    | c :: cs =>
      if c = quoteChar then
        match parseStrBody cs with
        | none => none
        | some (key, r1) =>
          match skipWs r1 with
          | [] => none
          | d :: ds =>
            if d = ':' then
              match parseVal fuel ds with
              | none => none
              | some (v, r2) =>
                match skipWs r2 with
                | [] => none
                | e :: es =>
                  if e = ',' then
                    match parseMemberSeq fuel es with
                    | some (fields, r3) => some ((String.mk key, v) :: fields, r3)
                    | none => none
                  else if e = rbrace then some ([(String.mk key, v)], es)
                  else none
            else none
      else none

/-- Parse a non-empty array item sequence up to and including the closing
bracket. -/
def parseItemSeq : Nat → List Char → Option (List Json × List Char)
  | 0, _ => none
  | Nat.succ fuel, s =>
    match parseVal fuel s with
    | none => none
    | some (v, r1) =>
      match skipWs r1 with
      | [] => none
      | e :: es =>
        if e = ',' then
          match parseItemSeq fuel es with
          | some (items, r2) => some (v :: items, r2)
          | none => none
        else if e = rbrack then some ([v], es)
        else none

end

/-- Embedding of Python's `json.loads` on the inputs this repository feeds
it: parse exactly one JSON value, allowing surrounding whitespace; `none`
models a raised `json.JSONDecodeError`. -/
def jsonLoads (s : List Char) : Option Json :=
  match parseVal (s.length + 1) s with
  | some (v, rest) => if skipWs rest = [] then some v else none
  | none => none

/-- Python `str.strip()` whitespace: space, tab, newline, carriage return,
vertical tab, form feed. -/
def isPySpace (c : Char) : Bool :=
  c = ' ' ∨ c = '\t' ∨ c = '\n' ∨ c = '\r' ∨ c = Char.ofNat 11 ∨ c = Char.ofNat 12

/-- Python `str.strip()`: drop whitespace from both ends. -/
def pyStrip (s : List Char) : List Char :=
  ((s.dropWhile isPySpace).reverse.dropWhile isPySpace).reverse

/-- Helper for `strFind`, tracking the current index. -/
def strFindAux (pat : List Char) : List Char → Nat → Option Nat
  | [], i => if pat = [] then some i else none
  | c :: rest, i =>
    if pat.isPrefixOf (c :: rest) then some i else strFindAux pat rest (i + 1)

/-- Python `str.find(sub)`: index of the first occurrence of `pat` in `s`
(`none` models the `-1` result). -/
def strFind (s pat : List Char) : Option Nat :=
  strFindAux pat s 0

/-- Helper for `rfindChar`, remembering the last index seen so far. -/
def rfindCharAux (c : Char) : List Char → Nat → Option Nat → Option Nat
  | [], _, acc => acc
  | x :: rest, i, acc =>
    rfindCharAux c rest (i + 1) (if x = c then some i else acc)

/-- Python `str.rfind(ch)` for a single character: index of the last
occurrence (`none` models the `-1` result). -/
def rfindChar (s : List Char) (c : Char) : Option Nat :=
  rfindCharAux c s 0 none

/-- Input type of `extract_json_from_markdown`
(`src/streamlitwraw_v4.py:106`): the callers pass either an already-parsed
dict or a raw string (`raw_response`). -/
inductive PyVal : Type where
  | dict (fields : List (String × Json)) : PyVal
  | str (raw : List Char) : PyVal

/-- The marker list of `extract_json_from_markdown`
(`src/streamlitwraw_v4.py:114`):
`['```json\n', 'json\n', '```python\n', '\x7b']`. -/
def markers : List (List Char) :=
  ["```json\n".data, "json\n".data, "```python\n".data, [lbrace]]

/-- One iteration of the marker loop (`src/streamlitwraw_v4.py:115-137`):
if `marker` occurs in `raw`, slice from just past it, strip, cut at the
closing fence (for fence markers) or at the first blank line (otherwise),
strip again, strip leading newlines, and try `json.loads`; `none` both when
the marker is absent and when the parse raises (the loop `continue`s in
either case). -/
def markerAttempt (raw marker : List Char) : Option Json :=
  match strFind raw marker with
  | none => none
  | some idx =>
    let content0 := pyStrip (raw.drop (idx + marker.length))
    let content1 :=
      if ("```".data).isPrefixOf marker then
        match strFind content0 "```".data with
        | some e => pyStrip (content0.take e)
        | none => content0
      else
        match strFind content0 "\n\n".data with
        | some e => pyStrip (content0.take e)
        | none => content0
    jsonLoads (content1.dropWhile (fun c => c = '\n'))

/-- The marker loop of `extract_json_from_markdown`: first marker whose
attempt parses wins. -/
def tryMarkers (raw : List Char) : List (List Char) → Option Json
  | [] => none
  | m :: ms =>
    match markerAttempt raw m with
    | some v => some v
    | none => tryMarkers raw ms

/-- The `try`-block body of `extract_json_from_markdown`
(`src/streamlitwraw_v4.py:108-146`).  `Except.error` models an exception
escaping to the outer handler: the only such exception on these inputs is
the `json.JSONDecodeError` of the first-brace/last-brace fallback parse at
line 144, which is outside the inner `try`. -/
def extract_body : PyVal → Except String Json
  | PyVal.dict d => Except.ok (Json.obj d)
  | PyVal.str raw =>
    match tryMarkers raw markers with
    | some v => Except.ok v
    | none =>
      match strFind raw [lbrace], rfindChar raw rbrace with
      | some first_brace, some last_brace =>
        match jsonLoads ((raw.drop first_brace).take (last_brace + 1 - first_brace)) with
        | some v => Except.ok v
        | none => Except.error "JSONDecodeError"
      | _, _ => Except.ok (Json.obj [])

/-- `extract_json_from_markdown` (`src/streamlitwraw_v4.py:106-150`): run the
body; the outer `except` catches any exception, logs, and returns `\x7b\x7d`. -/
def extract_json_from_markdown (v : PyVal) : Json :=
  match extract_body v with
  | Except.ok j => j
  | Except.error _ => Json.obj []

/-- True exactly for JSON objects (Python mappings). -/
def isObj : Json → Bool
  | Json.obj _ => true
  | _ => false

/-- Python truthiness of a JSON value (`if content_block_delta:`):
`None`, `False`, `0`, `""`, `[]` and `\x7b\x7d` are falsy. -/
def jsonTruthy : Json → Bool
  | Json.null => false
  | Json.bool b => b
  | Json.num n => n ≠ 0
  | Json.str s => s ≠ ""
  | Json.arr items => !items.isEmpty
  | Json.obj fields => !fields.isEmpty

/-- `dict.get(k)` with Python's duplicate-key rule (last occurrence wins, as
`json.loads` builds dicts).  Outer `none` models the `AttributeError` raised
when `.get` is called on a non-dict; `some none` is a missing key. -/
def dictGet : Json → String → Option (Option Json)
  | Json.obj fields, k =>
    some (fields.foldl (fun acc f => if f.1 = k then some f.2 else acc) none)
  | _, _ => none

/-- One event of a Bedrock response stream as consumed by
`assess_productivity` (`src/assesment_v2.py:57-63`) and
`analyze_productivity` (`src/productivity-activity-pattern-prod.py:79-85`).
`chunk = none` models `event.get("chunk")` returning `None`;
`chunk = some none` models a chunk whose `.get("bytes")` is `None`;
`chunk = some (some bs)` carries the UTF-8-decoded chunk bytes. -/
structure StreamEvent : Type where
  chunk : Option (Option (List Char))

/-- The per-event step of the stream loop: the text appended to
`full_response` for this event (`some fragment`), or `none` when the event
raises (`bytes` missing, undecodable JSON, `.get` on a non-dict, or a
non-string `text` value). -/
def processEvent (e : StreamEvent) : Option (List Char) :=
  match e.chunk with
  | none => some []
  | some none => none
  | some (some bs) =>
    match jsonLoads bs with
    | none => none
    | some chunkJson =>
      match dictGet chunkJson "contentBlockDelta" with
      | none => none
      | some none => some []
      | some (some content_block_delta) =>
        if jsonTruthy content_block_delta then
          match dictGet content_block_delta "delta" with
          | none => none
          | some deltaOpt =>
            match dictGet (deltaOpt.getD (Json.obj [])) "text" with
            | none => none
            | some textOpt =>
              match textOpt.getD (Json.str "") with
              | Json.str s => some s.data
              | _ => none
        else some []

/-- The accumulation loop over the events, aborting on the first raising
event (the exception propagates out of the loop). -/
def assembleAux : List StreamEvent → List Char → Option (List Char)
  | [], acc => some acc
  | e :: rest, acc =>
    match processEvent e with
    | none => none
    | some frag => assembleAux rest (acc ++ frag)

/-- The stream-assembly block shared by both lambda sources
(`full_response` accumulation): an absent/falsy `response.get("body")`
yields the empty text; otherwise fold the events in arrival order. -/
def assembleStream (stream : Option (List StreamEvent)) : Option (List Char) :=
  match stream with
  | none => some []
  | some events => assembleAux events []

/-- One `describe_execution` response as read by `poll_execution_status`
(`src/streamlitwraw_v4.py:158-180`): `response['status']`,
`response.get('output', '\x7b\x7d')`, `response.get('error', 'Unknown error')`. -/
structure DescribeResponse : Type where
  status : String
  output : Option (List Char)
  error : Option String
deriving DecidableEq

/-- The dict returned by `poll_execution_status`: a status string plus an
optional parsed output and an optional error detail. -/
structure PollResult : Type where
  status : String
  output : Option Json
  error : Option String

/-- The polling loop of `poll_execution_status`
(`src/streamlitwraw_v4.py:156-199`).  `describe tick` is the result of the
`describe_execution` call on poll number `tick` (0-based);
`Except.error e` models a transport-level exception caught at line 189.
Returns the result dict together with the total time slept
(`time.sleep(delay)` runs only after a non-terminal poll) and the number of
`describe_execution` calls made. -/
def pollAux (describe : Nat → Except String DescribeResponse) (delay : Nat) :
    Nat → Nat → PollResult × Nat × Nat
  | 0, _ =>
    ({ status := "TIMEOUT", output := none,
       error := some "Maximum polling attempts reached" }, 0, 0)
  | Nat.succ n, tick =>
    match describe tick with
    | Except.error e =>
      ({ status := "ERROR", output := none, error := some e }, 0, 1)
    | Except.ok resp =>
      if resp.status = "SUCCEEDED" then
        match jsonLoads (resp.output.getD "\x7b\x7d".data) with
        | some parsed =>
          ({ status := resp.status, output := some parsed, error := none }, 0, 1)
        | none =>
          ({ status := "ERROR", output := none,
             error := some "Invalid JSON output" }, 0, 1)
      else if resp.status = "FAILED" ∨ resp.status = "TIMED_OUT" ∨
          resp.status = "ABORTED" then
        ({ status := resp.status, output := none,
           error := some (resp.error.getD "Unknown error") }, 0, 1)
      else
        let r := pollAux describe delay n (tick + 1)
        (r.1, delay + r.2.1, r.2.2 + 1)

/-- `poll_execution_status(execution_arn, max_attempts=30, delay=2)`:
run the loop from poll 0 with `max_attempts` iterations available. -/
def poll_execution_status (describe : Nat → Except String DescribeResponse)
    (max_attempts delay : Nat) : PollResult × Nat × Nat :=
  pollAux describe delay max_attempts 0

/-- A status source that is truthfully `RUNNING` on polls 0–4 and
`SUCCEEDED` on poll 5 (the spec's poller scenario). -/
def runningThenSucceeded (t : Nat) : Except String DescribeResponse :=
  Except.ok { status := if t < 5 then "RUNNING" else "SUCCEEDED",
              output := none, error := none }

/-- A status source that always reports `RUNNING`. -/
def alwaysRunning (_ : Nat) : Except String DescribeResponse :=
  Except.ok { status := "RUNNING", output := none, error := none }

/-- A status source whose transport fails (raises) on the third poll. -/
def errAtTwo (t : Nat) : Except String DescribeResponse :=
  if t < 2 then Except.ok { status := "RUNNING", output := none, error := none }
  else Except.error "boom"

/-- A status source reporting success whose execution output is not valid
JSON text. -/
def succeededBadOutput (_ : Nat) : Except String DescribeResponse :=
  Except.ok { status := "SUCCEEDED", output := some "notjson".data, error := none }

/-- A `describe` result that keeps the polling loop going: a normal response
whose status is none of the terminal markers. -/
def isNonTerminal (r : Except String DescribeResponse) : Prop :=
  ∃ resp, r = Except.ok resp ∧ resp.status ≠ "SUCCEEDED" ∧
    ¬(resp.status = "FAILED" ∨ resp.status = "TIMED_OUT" ∨ resp.status = "ABORTED")

/-- Options passed to PIL `Image.save` by this code: `optimize`, an optional
`quality`, and a `compression_level` (the format is always `"PNG"`). -/
structure SaveOpts : Type where
  optimize : Bool
  quality : Option Nat
  compressionLevel : Nat

/-- Abstract interface to the PIL image operations the preprocessor uses.
PIL is external to the repository; its operations are uninterpreted, and the
theorems hold for every interpretation.  `openImage` returns `none` when
`Image.open` raises (undecodable image); `thumbnail` takes the target size
and an optional resampling-filter name (`"LANCZOS"` at
`src/streamlitwraw_v4.py:62`, PIL's default in `aggressive_compress`). -/
structure ImageOps (File Img Buf : Type) : Type where
  openImage : File → Option Img
  mode : Img → String
  convert : Img → String → Img
  getbbox : Img → Option (Nat × Nat × Nat × Nat)
  crop : Img → Nat × Nat × Nat × Nat → Img
  thumbnail : Img → Nat × Nat → Option String → Img
  savePng : Img → SaveOpts → Buf
  bufLen : Buf → Nat
  verifyPng : Buf → Bool
  base64Encode : Buf → String

/-- `auto_crop` (`src/streamlitwraw_v4.py:25-30`): crop to the bounding box
of non-empty content when one exists, pass through otherwise. -/
def auto_crop {File Img Buf : Type} (ops : ImageOps File Img Buf) (img : Img) : Img :=
  match ops.getbbox img with
  | some bbox => ops.crop img bbox
  | none => img

/-- The loop of `aggressive_compress` (`src/streamlitwraw_v4.py:34-41`):
each iteration re-thumbnails a copy of the original image to the next target
size, saves it as optimized PNG (`compression_level=9`), and returns the
first buffer of at most 250,000 bytes. -/
def aggressiveLoop {File Img Buf : Type} (ops : ImageOps File Img Buf)
    (img : Img) : List (Nat × Nat) → Option Buf
  | [] => none
  | size :: rest =>
    let buffer := ops.savePng (ops.thumbnail img size none)
      { optimize := true, quality := none, compressionLevel := 9 }
    if ops.bufLen buffer ≤ 250000 then some buffer
    else aggressiveLoop ops img rest

/-- `aggressive_compress` (`src/streamlitwraw_v4.py:32-42`): try the target
sizes 400×400, 300×300, 200×200 in order; `none` when every attempt is
still over 250,000 bytes. -/
def aggressive_compress {File Img Buf : Type} (ops : ImageOps File Img Buf)
    (img : Img) : Option Buf :=
  aggressiveLoop ops img [(400, 400), (300, 300), (200, 200)]

/-- The color-mode step of `compress_image` (`src/streamlitwraw_v4.py:57-58`):
`if img.mode not in ('RGBA', 'RGB'): img = img.convert('RGB')`. -/
def normalizeMode {File Img Buf : Type} (ops : ImageOps File Img Buf)
    (img : Img) : Img :=
  if ops.mode img = "RGBA" ∨ ops.mode img = "RGB" then img
  else ops.convert img "RGB"

/-- The rest of `compress_image` after the mode step
(`src/streamlitwraw_v4.py:60-80`): auto-crop, LANCZOS thumbnail to 500×500,
save as optimized PNG (`quality=85, compression_level=6`); when the buffer
exceeds 250,000 bytes fall back to `aggressive_compress`, and as a last
resort convert to grayscale (`'L'`) and re-encode
(`quality=70, compression_level=9`) without any further size check. -/
def afterNormalize {File Img Buf : Type} (ops : ImageOps File Img Buf)
    (img1 : Img) : Buf :=
  let img2 := auto_crop ops img1
  let img3 := ops.thumbnail img2 (500, 500) (some "LANCZOS")
  let buffer := ops.savePng img3 { optimize := true, quality := some 85, compressionLevel := 6 }
  if 250000 < ops.bufLen buffer then
    match aggressive_compress ops img3 with
    | some compressed_buffer => compressed_buffer
    | none =>
      ops.savePng (ops.convert img3 "L")
        { optimize := true, quality := some 70, compressionLevel := 9 }
  else buffer

/-- `compress_image` (`src/streamlitwraw_v4.py:52-83`): open the upload
(the surrounding `try` returns `None` when this raises), normalize the
color mode, then run the crop/downscale/encode cascade. -/
def compress_image {File Img Buf : Type} (ops : ImageOps File Img Buf)
    (f : File) : Option Buf :=
  match ops.openImage f with
  | none => none
  | some img0 => some (afterNormalize ops (normalizeMode ops img0))

/-- `validate_input` (`src/streamlitwraw_v4.py:95-104`): reject an empty
payload, reject a payload whose UTF-8 size exceeds 262,000 bytes, accept
otherwise. -/
def validate_input (image_base64 : String) : Bool × String :=
  if image_base64 = "" then (false, "No image data provided")
  else if 262000 < image_base64.utf8ByteSize then
    (false, "Image too large (" ++ toString image_base64.utf8ByteSize ++
      " bytes). Maximum allowed is 262144 bytes.")
  else (true, "")

/-- Outcome of the pre-submission pipeline: either the payload is handed to
the network call, or processing stopped locally with the given report. -/
inductive AnalyzeOutcome : Type where
  | noImage : AnalyzeOutcome
  | formatError : AnalyzeOutcome
  | emptyPayload : AnalyzeOutcome
  | sizeRejected (msg : String) : AnalyzeOutcome
  | submitted (payload : String) : AnalyzeOutcome
deriving DecidableEq

/-- The pre-submission path of `main` plus `trigger_analysis`
(`src/streamlitwraw_v4.py:407-436` and `201-224`): compress, verify the PNG
round-trip, base64-encode, check the 262,000-byte ceiling in `main`
(line 428), then `validate_input` inside `trigger_analysis` (line 203); the
POST fires only when every check passes. -/
def analyze_pipeline {File Img Buf : Type} (ops : ImageOps File Img Buf)
    (f : File) : AnalyzeOutcome :=
  match compress_image ops f with
  | none => AnalyzeOutcome.noImage
  | some buf =>
    if ops.verifyPng buf then
      let image_base64 := ops.base64Encode buf
      if image_base64 = "" then AnalyzeOutcome.emptyPayload
      else if 262000 < image_base64.utf8ByteSize then
        AnalyzeOutcome.sizeRejected
          ("Base64 encoded size (" ++ toString image_base64.utf8ByteSize ++
            " bytes) exceeds limit")
      else
        match validate_input image_base64 with
        | (true, _) => AnalyzeOutcome.submitted image_base64
        | (false, msg) => AnalyzeOutcome.sizeRejected msg
    else AnalyzeOutcome.formatError

/-- A concrete `ImageOps` interpretation whose image state is just the PIL
mode string and whose encoder exposes it: used to evaluate the mode-handling
path on concrete inputs. -/
def modeProbeOps : ImageOps Unit String String :=
  { openImage := fun _ => some "RGBA"
    mode := fun i => i
    convert := fun _ m => m
    getbbox := fun _ => none
    crop := fun i _ => i
    thumbnail := fun i _ _ => i
    savePng := fun i _ => i
    bufLen := fun _ => 0
    verifyPng := fun _ => true
    base64Encode := fun _ => "payload" }

/-- A concrete `ImageOps` interpretation on unit types whose encoder yields
a tiny payload: used to evaluate the submission pipeline end to end. -/
def okPipelineOps : ImageOps Unit Unit Unit :=
  { openImage := fun _ => some ()
    mode := fun _ => "RGB"
    convert := fun _ _ => ()
    getbbox := fun _ => none
    crop := fun i _ => i
    thumbnail := fun i _ _ => i
    savePng := fun _ _ => ()
    bufLen := fun _ => 0
    verifyPng := fun _ => true
    base64Encode := fun _ => "abc" }

/-- The decoded bytes of a well-formed Bedrock text-delta chunk carrying the
fragment `s`. -/
def deltaChunk (s : String) : List Char :=
  ("\x7b\"contentBlockDelta\":\x7b\"delta\":\x7b\"text\":\"" ++ s ++
    "\"\x7d\x7d\x7d").data

/-- A stream event carrying the delta `"A"`. -/
def evA : StreamEvent := ⟨some (some (deltaChunk "A"))⟩

/-- A stream event carrying the delta `"B"`. -/
def evB : StreamEvent := ⟨some (some (deltaChunk "B"))⟩

/-- A stream event carrying the delta `"C"`. -/
def evC : StreamEvent := ⟨some (some (deltaChunk "C"))⟩

/-- When no event of the list raises, the accumulation loop returns the
in-order concatenation of the per-event fragments appended to the
accumulator. -/
theorem assembleAux_eq (events : List StreamEvent) :
    ∀ acc : List Char, (∀ e ∈ events, processEvent e ≠ none) →
    assembleAux events acc =
      some (events.foldl (fun a e => a ++ (processEvent e).getD []) acc) := by
  induction events with
  | nil => intro acc _; rfl
  | cons e rest ih =>
    intro acc h
    have he : processEvent e ≠ none := h e (List.mem_cons_self e rest)
    obtain ⟨frag, hf⟩ := Option.ne_none_iff_exists'.mp he
    simp only [assembleAux, hf, List.foldl_cons, Option.getD_some]
    exact ih (acc ++ frag) fun x hx => h x (List.mem_cons_of_mem e hx)

/-- A successful find locates an occurrence: the pattern is a prefix of the
input dropped at the reported index. -/
theorem strFindAux_spec (pat : List Char) :
    ∀ (s : List Char) (i j : Nat), strFindAux pat s i = some j →
      i ≤ j ∧ pat.isPrefixOf (s.drop (j - i)) := by
  intro s
  induction s with
  | nil =>
    intro i j h
    rw [strFindAux] at h
    by_cases hp : pat = []
    · rw [if_pos hp] at h
      injection h with h
      subst h
      simp [hp, List.isPrefixOf]
    · rw [if_neg hp] at h
      exact absurd h (by simp)
  | cons c rest ih =>
    intro i j h
    rw [strFindAux] at h
    by_cases hp : pat.isPrefixOf (c :: rest)
    · rw [if_pos hp] at h
      injection h with h
      subst h
      simpa using hp
    · rw [if_neg hp] at h
      obtain ⟨hij, hpre⟩ := ih (i + 1) j h
      refine ⟨by omega, ?_⟩
      have hd : j - i = (j - (i + 1)) + 1 := by omega
      rw [hd]
      simpa using hpre

/-- A value parsed from input that starts with an opening brace is an
object. -/
theorem parseVal_lbrace_obj (fuel : Nat) (rest : List Char) (v : Json)
    (r : List Char) (h : parseVal fuel (lbrace :: rest) = some (v, r)) :
    ∃ fields, v = Json.obj fields := by
  cases fuel with
  | zero => exact absurd h (by simp [parseVal])
  | succ n =>
    rw [parseVal] at h
    have hws : skipWs (lbrace :: rest) = lbrace :: rest := by
      simp [skipWs, List.dropWhile, isJsonWs, lbrace]
    rw [hws] at h
    simp only [if_true] at h
    cases hsk : skipWs rest with
    | nil =>
      rw [hsk] at h
      exact absurd h (by simp)
    | cons d ds =>
      rw [hsk] at h
      simp only at h
      by_cases hd : d = rbrace
      · rw [if_pos hd] at h
        injection h with h
        exact ⟨[], by injection h with h1 h2; exact h1.symm⟩
      · rw [if_neg hd] at h
        cases hm : parseMemberSeq n (d :: ds) with
        | none =>
          rw [hm] at h
          exact absurd h (by simp)
        | some p =>
          rw [hm] at h
          injection h with h
          exact ⟨p.1, by injection h with h1 h2; exact h1.symm⟩

/-- If the first `k` polls are non-terminal, the loop runs them (sleeping
after each), then continues at poll `k` with the remaining attempts. -/
theorem pollAux_skip (describe : Nat → Except String DescribeResponse)
    (delay : Nat) :
    ∀ (k n tick : Nat), (∀ i, i < k → isNonTerminal (describe (tick + i))) →
    pollAux describe delay (k + n) tick =
      ((pollAux describe delay n (tick + k)).1,
       k * delay + (pollAux describe delay n (tick + k)).2.1,
       (pollAux describe delay n (tick + k)).2.2 + k) := by
  intro k
  induction k with
  | zero => intro n tick _; simp
  | succ k ih =>
    intro n tick h
    obtain ⟨resp, hok, hs, hterm⟩ := h 0 (Nat.succ_pos k)
    have hd : describe tick = Except.ok resp := by simpa using hok
    have hfu : (k + 1) + n = (k + n) + 1 := by omega
    rw [hfu]
    rw [pollAux]
    rw [hd]
    simp only
    rw [if_neg hs, if_neg hterm]
    have hshift : ∀ i, i < k → isNonTerminal (describe (tick + 1 + i)) := by
      intro i hi
      have := h (i + 1) (by omega)
      have harith : tick + (i + 1) = tick + 1 + i := by omega
      rwa [harith] at this
    rw [ih n (tick + 1) hshift]
    have harith2 : tick + 1 + k = tick + (k + 1) := by omega
    rw [harith2]
    simp only [Prod.mk.injEq, true_and, and_true, eq_self_iff_true]
    constructor
    · ring
    · omega

/-- With a permanently `RUNNING` source the loop always exhausts its
attempts: `n` polls, `n` sleeps, then the local timeout result. -/
theorem pollAux_alwaysRunning (delay : Nat) :
    ∀ n tick : Nat, pollAux alwaysRunning delay n tick =
      ({ status := "TIMEOUT", output := none,
         error := some "Maximum polling attempts reached" }, n * delay, n) := by
  intro n
  induction n with
  | zero => intro tick; simp [pollAux]
  | succ n ih =>
    intro tick
    rw [pollAux]
    simp only [alwaysRunning]
    rw [if_neg (by decide), if_neg (by decide)]
    rw [ih (tick + 1)]
    simp only [Prod.mk.injEq, true_and, and_true, eq_self_iff_true]
    ring

/-- C1: every payload the pipeline actually submits has base64 size at most
262,000 bytes, and an oversized encoding is rejected with a size report
before any network call — in particular the unchecked grayscale branch of
`compress_image` is still gated by the submission-time checks. -/
theorem c1_no_oversized_submission {File Img Buf : Type}
    (ops : ImageOps File Img Buf) (f : File) :
    (∀ payload, analyze_pipeline ops f = AnalyzeOutcome.submitted payload →
      payload.utf8ByteSize ≤ 262000) ∧
    (∀ buf, compress_image ops f = some buf → ops.verifyPng buf = true →
      ops.base64Encode buf ≠ "" → 262000 < (ops.base64Encode buf).utf8ByteSize →
      analyze_pipeline ops f = AnalyzeOutcome.sizeRejected
        ("Base64 encoded size (" ++ toString (ops.base64Encode buf).utf8ByteSize ++
          " bytes) exceeds limit")) := by
  constructor
  · intro payload h
    unfold analyze_pipeline at h
    cases hc : compress_image ops f with
    | none => rw [hc] at h; exact absurd h (by simp)
    | some buf =>
      rw [hc] at h
      simp only at h
      by_cases hv : ops.verifyPng buf
      · rw [if_pos hv] at h
        by_cases he : ops.base64Encode buf = ""
        · rw [if_pos he] at h
          exact absurd h (by simp)
        · rw [if_neg he] at h
          by_cases hgt : 262000 < (ops.base64Encode buf).utf8ByteSize
          · rw [if_pos hgt] at h
            exact absurd h (by simp)
          · rw [if_neg hgt] at h
            unfold validate_input at h
            rw [if_neg he, if_neg hgt] at h
            simp only at h
            injection h with h
            rw [← h]
            omega
      · rw [if_neg hv] at h
        exact absurd h (by simp)
  · intro buf hc hv hne hgt
    unfold analyze_pipeline
    rw [hc]
    simp only
    rw [if_pos hv, if_neg hne, if_pos hgt]

/-- C2 counterexample: with the RUNNING×5-then-SUCCEEDED source and the
default configuration (30 attempts, 2-second delay), the session does end
Succeeded on the 6th poll, but the elapsed interval time is 10 seconds
(5 × delay) — not 6 × delay = 12 as the claim states, because the loop
returns from the successful poll before sleeping. -/
theorem c2_elapsed_counterexample :
    (poll_execution_status runningThenSucceeded 30 2).1.status = "SUCCEEDED" ∧
    (poll_execution_status runningThenSucceeded 30 2).2.2 = 6 ∧
    (poll_execution_status runningThenSucceeded 30 2).2.1 = 10 ∧
    (poll_execution_status runningThenSucceeded 30 2).2.1 ≠ 6 * 2 :=
  ⟨rfl, rfl, rfl, by decide⟩

/-- C2 (amended): with a source that is RUNNING on the first 5 polls and
SUCCEEDED on the 6th, the session ends Succeeded after exactly 6 polls with
exactly 5 × delay of elapsed interval time (no sleep follows the terminal
poll); with a permanently RUNNING source it ends in the local TIMEOUT after
exactly `max_attempts` polls and `max_attempts` × delay of interval time. -/
theorem c2_poller_tick_accounting :
    (∀ m delay : Nat,
      (poll_execution_status runningThenSucceeded (m + 6) delay).1.status = "SUCCEEDED" ∧
      (poll_execution_status runningThenSucceeded (m + 6) delay).2.2 = 6 ∧
      (poll_execution_status runningThenSucceeded (m + 6) delay).2.1 = 5 * delay) ∧
    (∀ max_attempts delay : Nat,
      (poll_execution_status alwaysRunning max_attempts delay).1.status = "TIMEOUT" ∧
      (poll_execution_status alwaysRunning max_attempts delay).2.2 = max_attempts ∧
      (poll_execution_status alwaysRunning max_attempts delay).2.1 = max_attempts * delay) := by
  constructor
  · intro m delay
    refine ⟨rfl, rfl, ?_⟩
    have h : (poll_execution_status runningThenSucceeded (m + 6) delay).2.1 =
        delay + (delay + (delay + (delay + (delay + 0)))) := rfl
    rw [h]
    ring
  · intro max_attempts delay
    have h := pollAux_alwaysRunning delay max_attempts 0
    unfold poll_execution_status
    rw [h]
    exact ⟨rfl, rfl, rfl⟩

/-- C3: for every sequence of (decodable) stream events, the assembler
returns the in-arrival-order concatenation of the per-event text fragments,
events without a recognized delta contributing nothing; an absent stream
yields the empty text. -/
theorem c3_assembler_concatenation (events : List StreamEvent)
    (h : ∀ e ∈ events, processEvent e ≠ none) :
    assembleStream (some events) =
      some (events.foldl (fun acc e => acc ++ (processEvent e).getD []) []) ∧
    assembleStream none = some [] :=
  ⟨assembleAux_eq events [] h, rfl⟩

/-- C3 witness: deltas "A","B","C" assemble to "ABC", and the empty stream
assembles to "". -/
theorem c3_assembler_concatenation_witness :
    assembleStream (some [evA, evB, evC]) = some "ABC".data ∧
    assembleStream (some ([] : List StreamEvent)) = some "".data :=
  ⟨((c3_assembler_concatenation [evA, evB, evC] (by decide)).1).trans (by decide),
   ((c3_assembler_concatenation [] (by decide)).1).trans (by decide)⟩

/-- C4: the extractor returns an already-parsed dict unchanged, recovers the
fenced-JSON reference cases, and returns the empty record on prose with no
JSON. -/
theorem c4_extractor_reference_cases :
    (∀ d, extract_json_from_markdown (PyVal.dict d) = Json.obj d) ∧
    extract_json_from_markdown (PyVal.str "```json\n\x7b\"a\":1\x7d\n```".data) =
      Json.obj [("a", Json.num 1)] ∧
    extract_json_from_markdown
        (PyVal.str "Some text ```json\n\x7b\"applications\":[\"Editor\"]\x7d\n```".data) =
      Json.obj [("applications", Json.arr [Json.str "Editor"])] ∧
    extract_json_from_markdown (PyVal.str "no data here".data) = Json.obj [] :=
  ⟨fun _ => rfl, rfl, rfl, rfl⟩

/-- C5 counterexample: on the input "json\n5" the extractor returns the JSON
number 5, which is not a mapping — the marker-based parse can yield any JSON
value, refuting "always returns a mapping value". -/
theorem c5_nonmapping_counterexample :
    extract_json_from_markdown (PyVal.str "json\n5".data) = Json.num 5 ∧
    isObj (extract_json_from_markdown (PyVal.str "json\n5".data)) = false :=
  ⟨rfl, rfl⟩

/-- C5 (amended): extraction always terminates and returns a JSON value with
no exception escaping (the embedding is a total function); dict inputs come
back unchanged as mappings, and whenever no marker-based parse succeeds the
result is a mapping (the brace-span fallback parses an object or degrades to
the empty record) — but a successful marker-based parse may return a
non-mapping JSON value. -/
theorem c5_total_extraction (v : PyVal) :
    (∀ d, v = PyVal.dict d → extract_json_from_markdown v = Json.obj d) ∧
    (∀ raw, v = PyVal.str raw → tryMarkers raw markers = none →
      ∃ fields, extract_json_from_markdown v = Json.obj fields) := by
  constructor
  · intro d hd; subst hd; rfl
  · intro raw hr hm
    subst hr
    cases hf : strFind raw [lbrace] with
    | none =>
      refine ⟨[], ?_⟩
      cases hl : rfindChar raw rbrace with
      | none => simp only [extract_json_from_markdown, extract_body, hm, hf, hl]
      | some j => simp only [extract_json_from_markdown, extract_body, hm, hf, hl]
    | some i =>
      cases hl : rfindChar raw rbrace with
      | none =>
        refine ⟨[], ?_⟩
        simp only [extract_json_from_markdown, extract_body, hm, hf, hl]
      | some j =>
        cases hparse : jsonLoads ((raw.drop i).take (j + 1 - i)) with
        | none =>
          refine ⟨[], ?_⟩
          simp only [extract_json_from_markdown, extract_body, hm, hf, hl, hparse]
        | some w =>
          have hext2 : extract_json_from_markdown (PyVal.str raw) = w := by
            simp only [extract_json_from_markdown, extract_body, hm, hf, hl, hparse]
          -- the fallback span starts at the first brace, so a successful
          -- parse can only be an object
          have hf2 : strFindAux [lbrace] raw 0 = some i := hf
          obtain ⟨-, hpfx⟩ := strFindAux_spec [lbrace] raw 0 i hf2
          rw [Nat.sub_zero] at hpfx
          obtain ⟨t, ht⟩ : ∃ t, raw.drop i = lbrace :: t := by
            cases hd : raw.drop i with
            | nil => rw [hd] at hpfx; exact absurd hpfx (by simp [List.isPrefixOf])
            | cons c t =>
              rw [hd] at hpfx
              simp [List.isPrefixOf] at hpfx
              exact ⟨t, by rw [hpfx]⟩
          rw [ht] at hparse
          cases hk : j + 1 - i with
          | zero =>
            rw [hk, List.take_zero] at hparse
            have hnone : (none : Option Json) = some w := hparse
            exact absurd hnone (by simp)
          | succ m =>
            rw [hk, List.take_succ_cons] at hparse
            unfold jsonLoads at hparse
            cases hp : parseVal ((lbrace :: List.take m t).length + 1)
                (lbrace :: List.take m t) with
            | none =>
              rw [hp] at hparse
              exact absurd hparse (by simp)
            | some pr =>
              obtain ⟨w2, rest⟩ := pr
              rw [hp] at hparse
              simp only at hparse
              by_cases hrest : skipWs rest = []
              · rw [if_pos hrest] at hparse
                injection hparse with hw
                obtain ⟨fields, hfe⟩ :=
                  parseVal_lbrace_obj ((lbrace :: List.take m t).length + 1)
                    (List.take m t) w2 rest hp
                exact ⟨fields, by rw [hext2, ← hw, hfe]⟩
              · rw [if_neg hrest] at hparse
                exact absurd hparse (by simp)

/-- C5 witness: a markerless, braceless input yields a mapping. -/
theorem c5_total_extraction_witness :
    ∃ fields, extract_json_from_markdown (PyVal.str "zzz".data) = Json.obj fields :=
  (c5_total_extraction (PyVal.str "zzz".data)).2 "zzz".data rfl (by rfl)

/-- C1 witness: a concrete pipeline run that submits, with the submitted
payload under the ceiling. -/
theorem c1_no_oversized_submission_witness :
    analyze_pipeline okPipelineOps () = AnalyzeOutcome.submitted "abc" ∧
    "abc".utf8ByteSize ≤ 262000 :=
  ⟨by decide, (c1_no_oversized_submission okPipelineOps ()).1 "abc" (by decide)⟩

/-- C6: when no marker-based attempt parses, the extractor parses the span
from the first opening brace to the last closing brace of the whole input
and returns the result; when either brace is absent or that span fails to
parse, it returns the empty record. -/
theorem c6_brace_fallback (raw : List Char)
    (h : tryMarkers raw markers = none) :
    (∀ i j v, strFind raw [lbrace] = some i → rfindChar raw rbrace = some j →
      jsonLoads ((raw.drop i).take (j + 1 - i)) = some v →
      extract_json_from_markdown (PyVal.str raw) = v) ∧
    (∀ i j, strFind raw [lbrace] = some i → rfindChar raw rbrace = some j →
      jsonLoads ((raw.drop i).take (j + 1 - i)) = none →
      extract_json_from_markdown (PyVal.str raw) = Json.obj []) ∧
    ((strFind raw [lbrace] = none ∨ rfindChar raw rbrace = none) →
      extract_json_from_markdown (PyVal.str raw) = Json.obj []) := by
  refine ⟨?_, ?_, ?_⟩
  · intro i j v hf hl hparse
    simp only [extract_json_from_markdown, extract_body, h, hf, hl, hparse]
  · intro i j hf hl hparse
    simp only [extract_json_from_markdown, extract_body, h, hf, hl, hparse]
  · intro hor
    cases hor with
    | inl hf =>
      cases hl : rfindChar raw rbrace with
      | none => simp only [extract_json_from_markdown, extract_body, h, hf, hl]
      | some j => simp only [extract_json_from_markdown, extract_body, h, hf, hl]
    | inr hl =>
      cases hf : strFind raw [lbrace] with
      | none => simp only [extract_json_from_markdown, extract_body, h, hf, hl]
      | some i => simp only [extract_json_from_markdown, extract_body, h, hf, hl]

/-- C6 witness: an input with no markers and no braces degrades to the empty
record through the fallback. -/
theorem c6_brace_fallback_witness :
    extract_json_from_markdown (PyVal.str "nothing to see".data) = Json.obj [] :=
  (c6_brace_fallback "nothing to see".data (by rfl)).2.2 (Or.inl (by rfl))

/-- C7: a transport-level exception on poll `k` (after `k` non-terminal
polls) ends the session immediately with the ERROR outcome carrying the
exception detail: exactly `k + 1` status queries are made — the failing tick
is not retried and no further attempts are consumed — and the loop's single
return value is the session's one terminal outcome. -/
theorem c7_transport_error_immediate
    (describe : Nat → Except String DescribeResponse)
    (delay : Nat) (msg : String) (k max_attempts : Nat)
    (hk : k < max_attempts)
    (hpre : ∀ i, i < k → isNonTerminal (describe i))
    (herr : describe k = Except.error msg) :
    poll_execution_status describe max_attempts delay =
      ({ status := "ERROR", output := none, error := some msg },
       k * delay, k + 1) := by
  have hsplit : max_attempts = k + (max_attempts - k) := by omega
  rw [poll_execution_status, hsplit]
  have h0 : ∀ i, i < k → isNonTerminal (describe (0 + i)) := by
    intro i hi
    rw [Nat.zero_add]
    exact hpre i hi
  rw [pollAux_skip describe delay k (max_attempts - k) 0 h0]
  rw [Nat.zero_add]
  have hn : max_attempts - k = (max_attempts - k - 1) + 1 := by omega
  rw [hn, pollAux, herr]
  simp only [Prod.mk.injEq, true_and, and_true, eq_self_iff_true]
  constructor
  · omega
  · omega

/-- C7 witness: a source erroring on the third poll ends the session with
the transport detail after exactly 3 queries and 2 × delay of sleep. -/
theorem c7_transport_error_immediate_witness :
    poll_execution_status errAtTwo 30 2 =
      ({ status := "ERROR", output := none, error := some "boom" }, 4, 3) :=
  c7_transport_error_immediate errAtTwo 2 "boom" 2 30 (by omega)
    (fun i hi =>
      ⟨{ status := "RUNNING", output := none, error := none },
        by simp [errAtTwo, hi], by decide, by decide⟩)
    (by rfl)

/-- C8: `aggressive_compress` tries the target dimensions 400×400, 300×300,
200×200 in order, re-encoding at each step, and returns the first re-encoded
buffer of at most 250,000 bytes; when all three attempts are oversized it
returns `none`. -/
theorem c8_aggressive_compress_cascade {File Img Buf : Type}
    (ops : ImageOps File Img Buf) (img : Img) :
    aggressive_compress ops img =
      (let b1 := ops.savePng (ops.thumbnail img (400, 400) none)
        { optimize := true, quality := none, compressionLevel := 9 }
       let b2 := ops.savePng (ops.thumbnail img (300, 300) none)
        { optimize := true, quality := none, compressionLevel := 9 }
       let b3 := ops.savePng (ops.thumbnail img (200, 200) none)
        { optimize := true, quality := none, compressionLevel := 9 }
       if ops.bufLen b1 ≤ 250000 then some b1
       else if ops.bufLen b2 ≤ 250000 then some b2
       else if ops.bufLen b3 ≤ 250000 then some b3
       else none) := rfl

/-- C9 counterexample: an RGBA input — a mode that carries an alpha
channel — is not converted to RGB: `normalizeMode` leaves it unchanged and
the unconverted image flows through the whole cascade. -/
theorem c9_rgba_counterexample :
    modeProbeOps.mode "RGBA" = "RGBA" ∧
    normalizeMode modeProbeOps "RGBA" ≠ modeProbeOps.convert "RGBA" "RGB" ∧
    compress_image modeProbeOps () = some "RGBA" :=
  ⟨rfl, by decide, rfl⟩

/-- C9 (amended): images whose mode is neither RGB nor RGBA — indexed modes
and non-RGBA alpha modes included — are converted to RGB, and the conversion
happens before cropping, downscaling and encoding; RGBA images pass through
the mode step unconverted. -/
theorem c9_mode_normalization {File Img Buf : Type}
    (ops : ImageOps File Img Buf) :
    (∀ img, ops.mode img ≠ "RGBA" → ops.mode img ≠ "RGB" →
      normalizeMode ops img = ops.convert img "RGB") ∧
    (∀ img, ops.mode img = "RGBA" → normalizeMode ops img = img) ∧
    (∀ f, compress_image ops f =
      (ops.openImage f).map
        (fun img0 => afterNormalize ops (normalizeMode ops img0))) := by
  refine ⟨?_, ?_, ?_⟩
  · intro img h1 h2
    unfold normalizeMode
    rw [if_neg]
    rintro (h | h)
    · exact h1 h
    · exact h2 h
  · intro img h
    unfold normalizeMode
    rw [if_pos (Or.inl h)]
  · intro f
    unfold compress_image
    cases ops.openImage f <;> rfl

/-- C9 witness: an indexed-mode (`P`) image is converted to RGB by the mode
step. -/
theorem c9_mode_normalization_witness :
    normalizeMode modeProbeOps "P" = "RGB" :=
  (c9_mode_normalization modeProbeOps).1 "P" (by decide) (by decide)

/-- C10: when the status query reports SUCCEEDED on poll `k` (after `k`
non-terminal polls) but the execution's output is not valid JSON text, the
loop returns the ERROR outcome with the "Invalid JSON output" detail instead
of a Succeeded outcome carrying the output. -/
theorem c10_invalid_json_error
    (describe : Nat → Except String DescribeResponse)
    (delay k max_attempts : Nat) (resp : DescribeResponse) (out : List Char)
    (hk : k < max_attempts)
    (hpre : ∀ i, i < k → isNonTerminal (describe i))
    (hres : describe k = Except.ok resp)
    (hst : resp.status = "SUCCEEDED")
    (hout : resp.output = some out)
    (hbad : jsonLoads out = none) :
    poll_execution_status describe max_attempts delay =
      ({ status := "ERROR", output := none, error := some "Invalid JSON output" },
       k * delay, k + 1) := by
  have hsplit : max_attempts = k + (max_attempts - k) := by omega
  rw [poll_execution_status, hsplit]
  have h0 : ∀ i, i < k → isNonTerminal (describe (0 + i)) := by
    intro i hi
    rw [Nat.zero_add]
    exact hpre i hi
  rw [pollAux_skip describe delay k (max_attempts - k) 0 h0]
  rw [Nat.zero_add]
  have hn : max_attempts - k = (max_attempts - k - 1) + 1 := by omega
  rw [hn, pollAux, hres]
  simp only [hst, hout, Option.getD_some, hbad, eq_self_iff_true, if_true]
  simp only [Prod.mk.injEq, true_and, and_true, Nat.add_zero]
  omega

/-- C10 witness: a source that immediately reports SUCCEEDED with the
unparseable output `notjson` yields the ERROR outcome after one query. -/
theorem c10_invalid_json_error_witness :
    poll_execution_status succeededBadOutput 30 2 =
      ({ status := "ERROR", output := none, error := some "Invalid JSON output" },
       0, 1) :=
  c10_invalid_json_error succeededBadOutput 2 0 30
    { status := "SUCCEEDED", output := some "notjson".data, error := none }
    "notjson".data (by omega)
    (fun i hi => absurd hi (Nat.not_lt_zero i))
    rfl rfl rfl (by rfl)

end Productivity
